import Mathlib

/-!
Verification of the metadata enrichment and export pipeline of
`src/content.js` (Salesforce Enhanced Object Search browser extension).

The JavaScript is embedded shallowly:

* DOM rows become the `FieldRow` structure: the `innerText` of the row's
  `td` cells, plus the `dataset.picklistFetched` flag, the
  `dataset.picklistText` value (an `Option String`, `none` while the
  attribute has never been written) and the label cell's `title` attribute.
* JavaScript string primitives used by the source are modelled on the
  `List Char` contents of `String` (`toLowerCase`, `includes`, `substring`,
  `endsWith`, decimal rendering of numbers); the source page is
  ASCII-identified, matching the spec's stated assumption.
* Asynchronous `chrome.runtime.sendMessage` calls are made explicit: a
  function that issues requests returns the list of requests it issued,
  and the response callback is a separate function applied to an optional
  response value.  `console.error` calls are returned as a list of error
  reports (the observability collaborator).
-/

/-- Model of JavaScript `String.prototype.toLowerCase` (ASCII). -/
def jsToLower (s : String) : String :=
  ⟨s.data.map Char.toLower⟩

/-- Model of JavaScript `String.prototype.includes`: contiguous substring test. -/
def jsIncludes (s pat : String) : Bool :=
  decide (pat.data <:+: s.data)

/-- Model of JavaScript `String.prototype.endsWith`. -/
def jsEndsWith (s pat : String) : Bool :=
  decide (pat.data <:+ s.data)

/-- Model of JavaScript `String.prototype.trim`: drop leading and trailing
whitespace. -/
def jsTrim (s : String) : String :=
  ⟨((s.data.dropWhile Char.isWhitespace).reverse.dropWhile Char.isWhitespace).reverse⟩

/-- Model of JavaScript `String.prototype.substring(0, n)` (clamping at both ends,
as JavaScript does for out-of-range arguments). -/
def jsSubstringTo (s : String) (n : Nat) : String :=
  ⟨s.data.take n⟩

/-- Decimal digit list of a natural number, fuelled structurally so that the
kernel can evaluate it; `fuel` is sufficient whenever `n < fuel`. -/
def natToDigitsAux : Nat → Nat → List Char
  | 0, _ => []
  | fuel + 1, n =>
    if n < 10 then [Nat.digitChar n]
    else natToDigitsAux fuel (n / 10) ++ [Nat.digitChar (n % 10)]

/-- Model of JavaScript number-to-string conversion (`String(n)`, `suffix.toString()`,
template interpolation) for the nonnegative integers used by the source. -/
def natStr (n : Nat) : String :=
  ⟨natToDigitsAux (n + 1) n⟩

/-- Model of the JavaScript idiom `x.charAt(0).toUpperCase() + x.slice(1)`
(first character upper-cased, remainder unchanged; empty string maps to itself). -/
def jsUpperFirst (s : String) : String :=
  match s.data with
  | [] => ""
  | c :: cs => ⟨c.toUpper :: cs⟩

/-- Model of the JavaScript defaulting idiom `x || d` on an optional number:
`undefined` and `0` are falsy and yield the default. -/
def jsNumOr (x : Option Nat) (d : Nat) : Nat :=
  match x with
  | none => d
  | some n => if n = 0 then d else n

/-!  Field-Type Normalizer (src/content.js lines 310-321). -/

/-- Embeds `mapFieldTypeForExport(fieldType, fieldLength)`:
switch on `fieldType.toLowerCase()`, with `Text(${fieldLength || 500})` for
strings and first-character upper-casing as the default arm.  Total by
construction (the JavaScript function cannot throw either: every arm is a
pure string expression). -/
def mapFieldTypeForExport (fieldType : String) (fieldLength : Option Nat) : String :=
  if jsToLower fieldType = "reference" then "Lookup(User)"
  else if jsToLower fieldType = "double" then "Number(4,0)"
  else if jsToLower fieldType = "string" then
    "Text(" ++ natStr (jsNumOr fieldLength 500) ++ ")"
  else jsUpperFirst fieldType

/-!  FieldRow: one rendered table row (data model of the spec, section 3). -/

/-- One rendered `<tr>` of the fields table: `cells` holds the `innerText` of
its `td` elements, `picklistFetched` models `dataset.picklistFetched == "true"`,
`picklistText` models `dataset.picklistText` (`none` while never written), and
`titleAttr` models the label cell's `title` attribute. -/
structure FieldRow where
  cells : List String
  picklistFetched : Bool
  picklistText : Option String
  titleAttr : Option String
deriving Repr, DecidableEq

/-!  Row Search Filter (src/content.js lines 161-183). -/

/-- Embeds the per-row body of `onQuickFindInput` after the `cells.length < 3`
guard: the raw cell texts and the optional `dataset.picklistText` decide
visibility for the raw search-box `value` (the source trims and lower-cases it
first).  Returns the boolean that the source turns into `row.style.display`. -/
def rowSearchVisible (fieldLabelRaw apiNameRaw fieldTypeRaw : String)
    (picklistOpt : Option String) (value : String) : Bool :=
  let query := jsToLower (jsTrim value)
  let fieldLabel := jsToLower fieldLabelRaw
  let apiName := jsToLower apiNameRaw
  let fieldType := jsToLower fieldTypeRaw
  let picklistText :=
    match picklistOpt with
    | none => ""
    | some s => if s = "" then "" else jsToLower s
  let combined := fieldLabel ++ " " ++ picklistText
  (query == "") || jsIncludes combined query || jsIncludes apiName query ||
    jsIncludes fieldType query

/-- Embeds `onQuickFindInput` for a single row: rows with fewer than three
cells are skipped (their display is left untouched, result `none`); otherwise
the row is shown iff `rowSearchVisible` holds. -/
def onQuickFindRow (value : String) (row : FieldRow) : Option Bool :=
  if row.cells.length < 3 then none
  else some (rowSearchVisible (row.cells.getD 0 "") (row.cells.getD 1 "")
    (row.cells.getD 2 "") row.picklistText value)

/-- Stated from the spec's words (section 4.4): visible iff the query is empty,
or the label-plus-annotation combined text, the API name, or the raw field-type
text contains the query; all comparisons case-insensitive substring matches. -/
def isVisibleSpec (fieldLabel apiName fieldType picklistText query : String) : Prop :=
  query = "" ∨
    (jsToLower query).data <:+: (jsToLower (fieldLabel ++ " " ++ picklistText)).data ∨
    (jsToLower query).data <:+: (jsToLower apiName).data ∨
    (jsToLower query).data <:+: (jsToLower fieldType).data

/-!  Enrichment Cache/Annotator (src/content.js lines 189-247). -/

/-- One `fetchPicklistValues` message sent to the background script
(the external metadata provider channel). -/
structure PicklistRequest where
  objectName : String
  fieldApiName : String
  isStandard : Bool
deriving Repr, DecidableEq

/-- Embeds the per-row body of `processPicklistRows` (lines 228-246): skip when
`dataset.picklistFetched` is already set; skip when fewer than three cells;
otherwise, for picklist rows, issue one `fetchPicklistValues` request and set
the flag, and for non-picklist rows set an empty annotation, drop the label
title and set the flag.  Returns the updated row and the requests issued. -/
def processPicklistRow (objectName : String) (row : FieldRow) :
    FieldRow × List PicklistRequest :=
  if row.picklistFetched then (row, [])
  else if row.cells.length < 3 then (row, [])
  else
    let fieldType := jsToLower (row.cells.getD 2 "")
    let fieldApiName := jsTrim (row.cells.getD 1 "")
    let isStandard := !jsEndsWith fieldApiName "__c"
    if jsIncludes fieldType "picklist" then
      ({ row with picklistFetched := true },
        [⟨objectName, fieldApiName, isStandard⟩])
    else
      ({ row with
          picklistText := some ""
          titleAttr := none
          picklistFetched := true }, [])

/-- Embeds the `rows.forEach` loop of `processPicklistRows` (lines 227-246)
over the whole rendered row list, concatenating the requests issued. -/
def processPicklistRows (objectName : String) :
    List FieldRow → List FieldRow × List PicklistRequest
  | [] => ([], [])
  | row :: rest =>
    let p := processPicklistRow objectName row
    let ps := processPicklistRows objectName rest
    (p.1 :: ps.1, p.2 ++ ps.2)

/-- Response of the background script to a `fetchPicklistValues` message:
`success` flag and the optional `data.picklistText` payload. -/
structure PicklistResponse where
  success : Bool
  picklistText : Option String
deriving Repr, DecidableEq

/-- Embeds the response callback of `fetchPicklistValuesViaBackground`
(lines 199-213) for one row.  `response : Option PicklistResponse` models the
`response && response.success` truthiness test (`none` = no response).  On
success the annotation and the label title are written; on failure only
`console.error` runs.  Returns the updated row, the requests it issues
(always none: the callback never retries) and the `console.error` reports
handed to the observability collaborator. -/
def handlePicklistResponse (row : FieldRow) (response : Option PicklistResponse) :
    FieldRow × List PicklistRequest × List String :=
  match response with
  | some resp =>
    if resp.success then
      let picklistText := resp.picklistText.getD ""
      ({ row with
          picklistText := some picklistText
          titleAttr := if row.cells.isEmpty then row.titleAttr else some picklistText },
        [], [])
    else (row, [], ["Error fetching picklist values"])
  | none => (row, [], ["Error fetching picklist values"])

/-!  Sheet-Name Allocator (src/content.js lines 250-259). -/

/-- Candidate name tried by `getUniqueSheetName` for suffix `k`:
`sheetName.substring(0, 31 - suffix.toString().length) + suffix`. -/
def candidateName (sheetName : String) (k : Nat) : String :=
  ⟨(jsSubstringTo sheetName (31 - (natStr k).length)).data ++ (natStr k).data⟩

/-- Direct transliteration of the `while (existingNames.includes(uniqueName))`
loop of `getUniqueSheetName`, with the mutable locals `uniqueName` and `suffix`
and the `existingNames` argument threaded as explicit state, and an explicit
fuel bound.  The second component returns `existingNames` as the loop body left
it when the loop finished. -/
def getUniqueSheetNameLoop (sheetName : String) :
    Nat → String → Nat → List String → String × List String
  | 0, uniqueName, _, existingNames => (uniqueName, existingNames)
  | fuel + 1, uniqueName, suffix, existingNames =>
    if uniqueName ∈ existingNames then
      getUniqueSheetNameLoop sheetName fuel (candidateName sheetName suffix)
        (suffix + 1) existingNames
    else (uniqueName, existingNames)

/-- Fuel that provably suffices for `getUniqueSheetNameLoop` to reach a free
name (see `getUniqueSheetName_correct`). -/
def sheetNameFuel (existingNames : List String) : Nat :=
  10 ^ (existingNames.length + 1) + existingNames.length + 2

/-- Embeds `getUniqueSheetName(sheetName, existingNames)`: run the loop from
`uniqueName = sheetName`, `suffix = 1` with sufficient fuel. -/
def getUniqueSheetName (sheetName : String) (existingNames : List String) : String :=
  (getUniqueSheetNameLoop sheetName (sheetNameFuel existingNames) sheetName 1
    existingNames).1

/-!  Metadata Export Engine (src/content.js lines 328-365, 403-441, 462-497). -/

/-- One entry of the `fields` array of a `fetchObjectDescribe` response. -/
structure SField where
  fieldLabel : String
  fieldApiName : String
  fieldType : String
  fieldLength : Option Nat
  picklistValues : String
deriving Repr, DecidableEq

/-- Response of the background script to a `fetchObjectDescribe` message. -/
structure DescribeResponse where
  success : Bool
  fields : Option (List SField)
deriving Repr, DecidableEq

/-- One exportable object: label and API name, as collected from the home page
rows (bulk mode) or from the selection modal (selected mode). -/
structure SObject where
  objectLabel : String
  objectApiName : String
deriving Repr, DecidableEq

/-- Models the JavaScript truthiness test
`response && response.success && response.fields`: the field list when the
describe call succeeded, `none` otherwise. -/
def describeOk (response : Option DescribeResponse) : Option (List SField) :=
  match response with
  | some resp => if resp.success then resp.fields else none
  | none => none

/-- Models `field.fieldLength ? field.fieldLength : ""`: the length cell is the
decimal rendering of the length, or empty when the length is absent or `0`. -/
def jsLengthCell (fieldLength : Option Nat) : String :=
  match fieldLength with
  | none => ""
  | some n => if n = 0 then "" else natStr n

/-- Embeds the per-object `data` assembly shared by `exportFullDatabaseToXLSX`
(lines 417-432) and `exportSelectedObjectsToXLSX` (lines 475-490): push the
five-column header, then one row per described field (type run through
`mapFieldTypeForExport`), or the single error row when the describe call
failed. -/
def buildSheetRows (response : Option DescribeResponse) (obj : SObject) :
    List (List String) :=
  match describeOk response with
  | some fields =>
    ["Field Label", "API Name", "Field Type", "Field Length", "Picklist Values"] ::
      fields.map fun field =>
        [field.fieldLabel, field.fieldApiName,
          mapFieldTypeForExport field.fieldType field.fieldLength,
          jsLengthCell field.fieldLength, field.picklistValues]
  | none =>
    ["Field Label", "API Name", "Field Type", "Field Length", "Picklist Values"] ::
      [[obj.objectLabel, obj.objectApiName, "Error fetching fields", "", ""]]

/-- Models `sheetName.length > 31 ? sheetName.substring(0, 31) : sheetName`
(lines 434-435 and 491-492). -/
def truncate31 (s : String) : String :=
  if 31 < s.length then jsSubstringTo s 31 else s

/-- Embeds the `for (const obj of objects)` workbook-assembly loop shared by
`exportFullDatabaseToXLSX` (lines 406-441) and `exportSelectedObjectsToXLSX`
(lines 464-497): for each object, ask the metadata provider (`describe` maps an
object API name to its optional response), build the sheet data, truncate the
label, allocate a unique sheet name, and push that name onto `usedSheetNames`
before the next iteration.  Both callers start with `usedSheetNames = []`. -/
def exportObjectsToSheets (describe : String → Option DescribeResponse) :
    List SObject → List String → List (String × List (List String))
  | [], _ => []
  | obj :: rest, usedSheetNames =>
    let response := describe obj.objectApiName
    let data := buildSheetRows response obj
    let sheetName := getUniqueSheetName (truncate31 obj.objectLabel) usedSheetNames
    (sheetName, data) :: exportObjectsToSheets describe rest (usedSheetNames ++ [sheetName])

/-- Embeds the per-row body of `exportCurrentObjectFieldsToXLSX`
(lines 335-345): rows with fewer than three cells are skipped; otherwise the
trimmed label, API name, the type mapped with the constant length `500`, and
the trimmed annotation form the data row (no length column in this mode). -/
def exportCurrentRow (row : FieldRow) : Option (List String) :=
  if row.cells.length < 3 then none
  else
    let fieldLabel := jsTrim (row.cells.getD 0 "")
    let apiName := jsTrim (row.cells.getD 1 "")
    let originalFieldType := jsTrim (row.cells.getD 2 "")
    let mappedFieldType := mapFieldTypeForExport originalFieldType (some 500)
    let picklistText :=
      match row.picklistText with
      | none => ""
      | some s => if s = "" then "" else jsTrim s
    some [fieldLabel, apiName, mappedFieldType, picklistText]

/-- Embeds the `data` assembly of `exportCurrentObjectFieldsToXLSX`
(lines 333-345): the four-column header (no "Field Length"), then one row per
rendered row that passes the cell-count guard. -/
def exportCurrentObjectData (rows : List FieldRow) : List (List String) :=
  ["Field Label", "API Name", "Field Type", "Picklist Values"] ::
    rows.filterMap exportCurrentRow

/-!  Basic facts about the JavaScript string model. -/

theorem jsToLower_append (a b : String) :
    jsToLower (a ++ b) = jsToLower a ++ jsToLower b := by
  cases a with
  | mk la => cases b with
    | mk lb => simp [jsToLower, String.ext_iff]

theorem jsToLower_eq_empty_iff (s : String) : jsToLower s = "" ↔ s = "" := by
  cases s with
  | mk l => simp [jsToLower, String.ext_iff]

theorem jsIncludes_iff (s pat : String) :
    jsIncludes s pat = true ↔ pat.data <:+: s.data := by
  simp [jsIncludes]

/-!  Claim C3: the Field-Type Normalizer is total and implements the fixed
mapping table. -/

/-- Claim C3: `mapFieldTypeForExport` is a total pure function; comparing the
raw type case-insensitively, "reference" maps to "Lookup(User)", "double" to
"Number(4,0)", "string" to "Text(length)" with the length defaulting to 500
when absent or zero, and any other value maps to the input with its first
character upper-cased and the remainder unchanged; it never throws (it is a
total Lean function on all inputs). -/
theorem mapFieldTypeForExport_spec (t : String) (len : Option Nat) :
    (jsToLower t = "reference" → mapFieldTypeForExport t len = "Lookup(User)") ∧
    (jsToLower t = "double" → mapFieldTypeForExport t len = "Number(4,0)") ∧
    (jsToLower t = "string" → len = none ∨ len = some 0 →
      mapFieldTypeForExport t len = "Text(500)") ∧
    (jsToLower t = "string" → ∀ n : Nat, len = some n → n ≠ 0 →
      mapFieldTypeForExport t len = "Text(" ++ natStr n ++ ")") ∧
    (jsToLower t ≠ "reference" → jsToLower t ≠ "double" → jsToLower t ≠ "string" →
      mapFieldTypeForExport t len = jsUpperFirst t) := by
  refine ⟨fun h => ?_, fun h => ?_, fun h hlen => ?_, fun h n hn hn0 => ?_,
    fun h1 h2 h3 => ?_⟩
  · simp [mapFieldTypeForExport, h]
  · simp [mapFieldTypeForExport, h]
  · rcases hlen with rfl | rfl <;> simp [mapFieldTypeForExport, h, jsNumOr] <;> rfl
  · subst hn
    simp [mapFieldTypeForExport, h, jsNumOr, hn0]
  · simp [mapFieldTypeForExport, h1, h2, h3]

/-- Witness for C3 at concrete inputs: the "string" arm with a zero (falsy)
length defaults to 500. -/
theorem mapFieldTypeForExport_spec_witness :
    mapFieldTypeForExport "STRING" (some 0) = "Text(500)" :=
  (mapFieldTypeForExport_spec "STRING" (some 0)).2.2.1 (by decide) (Or.inr rfl)

/-!  Claim C2: enrichment is idempotent per row. -/

theorem processPicklistRow_of_fetched (objectName : String) (row : FieldRow)
    (h : row.picklistFetched = true) :
    processPicklistRow objectName row = (row, []) := by
  simp [processPicklistRow, h]

theorem processPicklistRow_fst_flag (objectName : String) (row : FieldRow)
    (hf : row.picklistFetched = false) (hc : ¬ row.cells.length < 3) :
    ((processPicklistRow objectName row).1).picklistFetched = true := by
  simp only [processPicklistRow, hf, hc, if_false, Bool.false_eq_true]
  split <;> rfl

theorem processPicklistRow_stable (objectName : String) (row : FieldRow) :
    processPicklistRow objectName (processPicklistRow objectName row).1 =
      ((processPicklistRow objectName row).1, []) := by
  by_cases hf : row.picklistFetched
  · simp [processPicklistRow, hf]
  · by_cases hc : row.cells.length < 3
    · simp [processPicklistRow, hf, hc]
    · exact processPicklistRow_of_fetched objectName _
        (processPicklistRow_fst_flag objectName row (by simpa using hf) hc)

/-- Claim C2: a row whose `picklistFetched` flag is set (in-flight or done) is
skipped entirely by the enrichment pass: no request is issued and the row is
unchanged; an unprocessed picklist row causes exactly one request, and
re-processing its updated state (the flag is set at request-issue time, before
any response arrives) issues no further request; consequently running the pass
a second time over the output of a first pass changes nothing and issues zero
requests. -/
theorem processPicklistRows_idempotent (objectName : String) :
    (∀ row : FieldRow, row.picklistFetched = true →
      processPicklistRow objectName row = (row, [])) ∧
    (∀ row : FieldRow, row.picklistFetched = false → 3 ≤ row.cells.length →
      jsIncludes (jsToLower (row.cells.getD 2 "")) "picklist" = true →
      (processPicklistRow objectName row).2 =
        [⟨objectName, jsTrim (row.cells.getD 1 ""),
          !jsEndsWith (jsTrim (row.cells.getD 1 "")) "__c"⟩] ∧
      (processPicklistRow objectName (processPicklistRow objectName row).1).2 = []) ∧
    (∀ rows : List FieldRow,
      processPicklistRows objectName (processPicklistRows objectName rows).1 =
        ((processPicklistRows objectName rows).1, [])) := by
  refine ⟨processPicklistRow_of_fetched objectName, fun row hf hc hp => ⟨?_, ?_⟩, ?_⟩
  · simp only [List.getD_eq_getElem?_getD] at hp
    simp [processPicklistRow, hf, Nat.not_lt.2 hc, hp]
  · rw [processPicklistRow_stable]
  · intro rows
    induction rows with
    | nil => rfl
    | cons row rest ih =>
      simp only [processPicklistRows]
      rw [processPicklistRow_stable, ih]
      simp

/-- Witness for C2: a fresh three-cell picklist row issues exactly one request,
and processing it again issues none. -/
theorem processPicklistRows_idempotent_witness :
    (processPicklistRow "Account"
      ⟨["Status", "Status__c", "Picklist"], false, none, none⟩).2 =
      [⟨"Account", "Status__c", false⟩] ∧
    (processPicklistRow "Account" (processPicklistRow "Account"
      ⟨["Status", "Status__c", "Picklist"], false, none, none⟩).1).2 = [] := by
  have h := (processPicklistRows_idempotent "Account").2.1
    ⟨["Status", "Status__c", "Picklist"], false, none, none⟩ rfl (by decide) (by decide)
  exact ⟨h.1.trans (by decide), h.2⟩

/-!  Claim C4: picklist fetch failures are fully absorbed. -/

/-- Claim C4: when the metadata request for an unprocessed picklist row fails
(no response, or a response with `success = false`), the completion handler
issues no request (no retry), reports the error to the observability
collaborator, and the row still carries the set `picklistFetched` flag (done
state, set at request-issue time) with an annotation that reads as empty; the
handler is a total function, so it never throws. -/
theorem picklistFailureAbsorbed (objectName : String) (row : FieldRow)
    (response : Option PicklistResponse)
    (hflag : row.picklistFetched = false) (hcells : 3 ≤ row.cells.length)
    (htype : jsIncludes (jsToLower (row.cells.getD 2 "")) "picklist" = true)
    (hfresh : row.picklistText = none)
    (hfail : response = none ∨ ∃ r, response = some r ∧ r.success = false) :
    (handlePicklistResponse (processPicklistRow objectName row).1 response).2.1 = [] ∧
    (handlePicklistResponse (processPicklistRow objectName row).1 response).2.2 ≠ [] ∧
    ((handlePicklistResponse (processPicklistRow objectName row).1 response).1).picklistFetched
       = true ∧
    ((handlePicklistResponse (processPicklistRow objectName row).1 response).1).picklistText.getD
       "" = "" := by
  have h1 : (processPicklistRow objectName row).1 = { row with picklistFetched := true } := by
    simp only [List.getD_eq_getElem?_getD] at htype
    simp [processPicklistRow, hflag, Nat.not_lt.2 hcells, htype]
  have h2 : handlePicklistResponse (processPicklistRow objectName row).1 response =
      ((processPicklistRow objectName row).1, [], ["Error fetching picklist values"]) := by
    rcases hfail with rfl | ⟨r, rfl, hr⟩
    · rfl
    · simp [handlePicklistResponse, hr]
  rw [h2, h1]
  simp [hfresh]

/-- Witness for C4: a failing response for a fresh picklist row. -/
theorem picklistFailureAbsorbed_witness :
    (handlePicklistResponse (processPicklistRow "Account"
      ⟨["Status", "Status__c", "Picklist"], false, none, none⟩).1
      (some ⟨false, none⟩)).2.1 = [] ∧
    (handlePicklistResponse (processPicklistRow "Account"
      ⟨["Status", "Status__c", "Picklist"], false, none, none⟩).1
      (some ⟨false, none⟩)).2.2 ≠ [] ∧
    ((handlePicklistResponse (processPicklistRow "Account"
      ⟨["Status", "Status__c", "Picklist"], false, none, none⟩).1
      (some ⟨false, none⟩)).1).picklistFetched = true ∧
    ((handlePicklistResponse (processPicklistRow "Account"
      ⟨["Status", "Status__c", "Picklist"], false, none, none⟩).1
      (some ⟨false, none⟩)).1).picklistText.getD "" = "" :=
  picklistFailureAbsorbed "Account"
    ⟨["Status", "Status__c", "Picklist"], false, none, none⟩ (some ⟨false, none⟩)
    rfl (by decide) (by decide) rfl (Or.inr ⟨⟨false, none⟩, rfl, rfl⟩)

/-!  Claims C6 and C7: the Row Search Filter. -/

theorem rowSearchVisible_iff (l a t : String) (p : Option String) (value : String) :
    rowSearchVisible l a t p value = true ↔
      isVisibleSpec l a t (p.getD "") (jsTrim value) := by
  have htern : (match p with
      | none => ""
      | some s => if s = "" then "" else jsToLower s) = jsToLower (p.getD "") := by
    cases p with
    | none => rfl
    | some s =>
      by_cases h : s = ""
      · subst h; rfl
      · simp [h]
  have hsp : jsToLower " " = " " := rfl
  simp only [rowSearchVisible, htern, isVisibleSpec, jsToLower_append, hsp,
    Bool.or_eq_true, beq_iff_eq, jsIncludes_iff, jsToLower_eq_empty_iff]
  tauto

/-- Claim C6: for every row with at least three cells and every query, the row
is made visible exactly when the (trimmed) query is empty, or the row's field
label joined with a space and its picklist annotation contains the query, or
its API name contains the query, or its raw field-type text contains the
query, all as case-insensitive substring comparisons with no tokenization. -/
theorem onQuickFindRow_spec (value : String) (row : FieldRow)
    (hcells : 3 ≤ row.cells.length) :
    onQuickFindRow value row = some true ↔
      isVisibleSpec (row.cells.getD 0 "") (row.cells.getD 1 "") (row.cells.getD 2 "")
        (row.picklistText.getD "") (jsTrim value) := by
  rw [onQuickFindRow, if_neg (Nat.not_lt.2 hcells), Option.some_inj,
    rowSearchVisible_iff]

/-- Witness for C6: a concrete picklist row matched through its annotation. -/
theorem onQuickFindRow_spec_witness :
    onQuickFindRow "active" ⟨["Status", "Status__c", "Picklist"], true,
        some "Active;Inactive", none⟩ = some true ↔
      isVisibleSpec "Status" "Status__c" "Picklist" "Active;Inactive" "active" := by
  have h := onQuickFindRow_spec "active"
    ⟨["Status", "Status__c", "Picklist"], true, some "Active;Inactive", none⟩
    (by decide)
  exact (by decide : onQuickFindRow "active" ⟨["Status", "Status__c", "Picklist"],
    true, some "Active;Inactive", none⟩ = some true) ▸ h

/-- Claim C7: row visibility is monotone in the picklist annotation for a
matching query: if a row was visible for a non-empty query and its annotation
changes to one containing text that matches the query (case-insensitively),
while label, API name and type are unchanged, it stays visible; and every row
is visible for the empty query. -/
theorem rowSearchVisible_monotone :
    (∀ (fieldLabel apiName fieldType : String) (oldPick : Option String)
      (newPick value : String),
      jsTrim value ≠ "" →
      rowSearchVisible fieldLabel apiName fieldType oldPick value = true →
      (jsToLower (jsTrim value)).data <:+: (jsToLower newPick).data →
      rowSearchVisible fieldLabel apiName fieldType (some newPick) value = true) ∧
    (∀ (fieldLabel apiName fieldType : String) (pick : Option String),
      rowSearchVisible fieldLabel apiName fieldType pick "" = true) := by
  constructor
  · intro l a t p np value hq hvis hinf
    rw [rowSearchVisible_iff]
    right; left
    rw [jsToLower_append, jsToLower_append]
    simp only [String.data_append, Option.getD_some]
    exact hinf.trans (List.suffix_append _ _).isInfix
  · intro l a t p
    have h0 : jsToLower (jsTrim "") = "" := rfl
    simp [rowSearchVisible, h0]

/-- Witness for C7: a row visible via its label for query "a" stays visible
when the annotation becomes "Active", which contains "a". -/
theorem rowSearchVisible_monotone_witness :
    rowSearchVisible "Status" "Status__c" "Picklist" (some "Active") "a" = true :=
  rowSearchVisible_monotone.1 "Status" "Status__c" "Picklist" none "Active" "a"
    (by decide) (by decide) (by decide)

/-!  Claims C5, C8, C9, C10: the Metadata Export Engine. -/

theorem exportObjectsToSheets_map_snd (describe : String → Option DescribeResponse) :
    ∀ (objects : List SObject) (usedSheetNames : List String),
      (exportObjectsToSheets describe objects usedSheetNames).map Prod.snd =
        objects.map fun obj => buildSheetRows (describe obj.objectApiName) obj := by
  intro objects
  induction objects with
  | nil => intro used; rfl
  | cons obj rest ih =>
    intro used
    simp only [exportObjectsToSheets, List.map_cons, ih]

theorem exportObjectsToSheets_length (describe : String → Option DescribeResponse)
    (objects : List SObject) (usedSheetNames : List String) :
    (exportObjectsToSheets describe objects usedSheetNames).length = objects.length := by
  have h := congrArg List.length (exportObjectsToSheets_map_snd describe objects usedSheetNames)
  simpa using h

theorem exportObjectsToSheets_get (describe : String → Option DescribeResponse) :
    ∀ (objects : List SObject) (used : List String) (i : Nat)
      (hi : i < objects.length)
      (h : i < (exportObjectsToSheets describe objects used).length),
      ((exportObjectsToSheets describe objects used).get ⟨i, h⟩).2 =
        buildSheetRows (describe (objects.get ⟨i, hi⟩).objectApiName)
          (objects.get ⟨i, hi⟩) := by
  intro objects
  induction objects with
  | nil => intro used i hi h; exact absurd hi (by simp)
  | cons obj rest ih =>
    intro used i hi h
    cases i with
    | zero => rfl
    | succ i =>
      have h2 : i < (exportObjectsToSheets describe rest
          (used ++ [getUniqueSheetName (truncate31 obj.objectLabel) used])).length := by
        rw [exportObjectsToSheets_length]
        exact Nat.lt_of_succ_lt_succ hi
      exact ih _ i (Nat.lt_of_succ_lt_succ hi) h2

theorem buildSheetRows_of_failure (response : Option DescribeResponse) (obj : SObject)
    (h : describeOk response = none) :
    buildSheetRows response obj =
      [["Field Label", "API Name", "Field Type", "Field Length", "Picklist Values"],
       [obj.objectLabel, obj.objectApiName, "Error fetching fields", "", ""]] := by
  simp [buildSheetRows, h]

/-- Claim C5: in bulk and selected export modes, a failing field-description
request for one object does not abort the export: the workbook still gets one
sheet per listed object, and the failing object's sheet holds exactly the
header and the single error data row
`[objectLabel, objectApiName, "Error fetching fields", "", ""]`. -/
theorem exportObjectsToSheets_failure (describe : String → Option DescribeResponse)
    (objects : List SObject) (i : Nat) (hi : i < objects.length)
    (hfail : describeOk (describe (objects.get ⟨i, hi⟩).objectApiName) = none) :
    (exportObjectsToSheets describe objects []).length = objects.length ∧
    ∀ h : i < (exportObjectsToSheets describe objects []).length,
      ((exportObjectsToSheets describe objects []).get ⟨i, h⟩).2 =
        [["Field Label", "API Name", "Field Type", "Field Length", "Picklist Values"],
         [(objects.get ⟨i, hi⟩).objectLabel, (objects.get ⟨i, hi⟩).objectApiName,
          "Error fetching fields", "", ""]] := by
  refine ⟨exportObjectsToSheets_length describe objects [], fun h => ?_⟩
  rw [exportObjectsToSheets_get describe objects [] i hi h,
    buildSheetRows_of_failure _ _ hfail]

/-- Witness for C5: one object whose describe request gets no response. -/
theorem exportObjectsToSheets_failure_witness :
    (exportObjectsToSheets (fun _ => none) [⟨"Broken", "Broken__c"⟩] []).length = 1 ∧
    ∀ h : 0 < (exportObjectsToSheets (fun _ => none) [⟨"Broken", "Broken__c"⟩] []).length,
      ((exportObjectsToSheets (fun _ => none) [⟨"Broken", "Broken__c"⟩] []).get ⟨0, h⟩).2 =
        [["Field Label", "API Name", "Field Type", "Field Length", "Picklist Values"],
         ["Broken", "Broken__c", "Error fetching fields", "", ""]] :=
  exportObjectsToSheets_failure (fun _ => none) [⟨"Broken", "Broken__c"⟩] 0
    (by decide) rfl

/-- Claim C8: the sheet data of the bulk and selected export modes starts with
the five-column header, the single-current-object mode starts with the
four-column header (no "Field Length"), and in all modes every data row built
from a field runs its raw type through the Field-Type Normalizer. -/
theorem exportHeaderRows :
    (∀ rows : List FieldRow, (exportCurrentObjectData rows).head? =
      some ["Field Label", "API Name", "Field Type", "Picklist Values"]) ∧
    (∀ (response : Option DescribeResponse) (obj : SObject),
      (buildSheetRows response obj).head? =
        some ["Field Label", "API Name", "Field Type", "Field Length", "Picklist Values"]) ∧
    (∀ (obj : SObject) (fields : List SField),
      buildSheetRows (some ⟨true, some fields⟩) obj =
        ["Field Label", "API Name", "Field Type", "Field Length", "Picklist Values"] ::
          fields.map fun field =>
            [field.fieldLabel, field.fieldApiName,
              mapFieldTypeForExport field.fieldType field.fieldLength,
              jsLengthCell field.fieldLength, field.picklistValues]) ∧
    (∀ row : FieldRow, 3 ≤ row.cells.length →
      exportCurrentRow row =
        some [jsTrim (row.cells.getD 0 ""), jsTrim (row.cells.getD 1 ""),
          mapFieldTypeForExport (jsTrim (row.cells.getD 2 "")) (some 500),
          match row.picklistText with
          | none => ""
          | some s => if s = "" then "" else jsTrim s]) := by
  refine ⟨fun rows => rfl, fun response obj => ?_, fun obj fields => rfl,
    fun row hc => ?_⟩
  · cases h : describeOk response <;> simp [buildSheetRows, h]
  · rw [exportCurrentRow, if_neg (Nat.not_lt.2 hc)]

/-- Witness for C8: a concrete three-cell row of the current-object mode. -/
theorem exportHeaderRows_witness :
    exportCurrentRow ⟨["Name", "Name", "String"], true, some "", none⟩ =
      some ["Name", "Name", "Text(500)", ""] := by
  have h := exportHeaderRows.2.2.2 ⟨["Name", "Name", "String"], true, some "", none⟩
    (by decide)
  exact h.trans (by decide)

/-- Claim C9: the Sheet-Name Allocator does not mutate the used-name registry:
the transliterated loop returns `existingNames` exactly as it received it, and
in the export loop the registry passed to the next iteration is exactly the
one `getUniqueSheetName` read plus the returned name, pushed by the caller. -/
theorem sheetRegistryUnmutated :
    (∀ (sheetName : String) (fuel : Nat) (uniqueName : String) (suffix : Nat)
      (existingNames : List String),
      (getUniqueSheetNameLoop sheetName fuel uniqueName suffix existingNames).2 =
        existingNames) ∧
    (∀ (describe : String → Option DescribeResponse) (obj : SObject)
      (rest : List SObject) (usedSheetNames : List String),
      exportObjectsToSheets describe (obj :: rest) usedSheetNames =
        (getUniqueSheetName (truncate31 obj.objectLabel) usedSheetNames,
          buildSheetRows (describe obj.objectApiName) obj) ::
          exportObjectsToSheets describe rest
            (usedSheetNames ++ [getUniqueSheetName (truncate31 obj.objectLabel)
              usedSheetNames])) := by
  constructor
  · intro sheetName fuel
    induction fuel with
    | zero => intro u k used; rfl
    | succ fuel ih =>
      intro u k used
      rw [getUniqueSheetNameLoop]
      split
      · exact ih _ _ _
      · rfl
  · intro describe obj rest usedSheetNames
    rfl

/-- Claim C10: in single-current-object export mode, a row whose rendered type
text is "string" (case-insensitively) is exported with the constant type cell
"Text(500)", because the export passes the literal length 500 to the
Field-Type Normalizer. -/
theorem exportCurrentString500 (rows : List FieldRow) (row : FieldRow)
    (hmem : row ∈ rows) (hcells : 3 ≤ row.cells.length)
    (hstring : jsToLower (jsTrim (row.cells.getD 2 "")) = "string") :
    ∃ lbl api pick : String,
      exportCurrentRow row = some [lbl, api, "Text(500)", pick] ∧
      [lbl, api, "Text(500)", pick] ∈ exportCurrentObjectData rows := by
  have hmap : mapFieldTypeForExport (jsTrim (row.cells.getD 2 "")) (some 500) =
      "Text(500)" := by
    simp only [mapFieldTypeForExport, hstring]
    rw [if_neg (by decide), if_neg (by decide), if_pos trivial]
    decide
  have hrow : exportCurrentRow row =
      some [jsTrim (row.cells.getD 0 ""), jsTrim (row.cells.getD 1 ""), "Text(500)",
        match row.picklistText with
        | none => ""
        | some s => if s = "" then "" else jsTrim s] := by
    rw [exportCurrentRow, if_neg (Nat.not_lt.2 hcells)]
    simp only [hmap]
  refine ⟨_, _, _, hrow, List.mem_cons_of_mem _ (List.mem_filterMap.mpr ⟨row, hmem, hrow⟩)⟩

/-- Witness for C10: an upper-case "STRING" row is exported as "Text(500)". -/
theorem exportCurrentString500_witness :
    ∃ lbl api pick : String,
      exportCurrentRow ⟨["Name", "Name", "STRING"], true, none, none⟩ =
        some [lbl, api, "Text(500)", pick] ∧
      [lbl, api, "Text(500)", pick] ∈
        exportCurrentObjectData [⟨["Name", "Name", "STRING"], true, none, none⟩] :=
  exportCurrentString500 [⟨["Name", "Name", "STRING"], true, none, none⟩]
    ⟨["Name", "Name", "STRING"], true, none, none⟩ (by decide) (by decide) (by decide)

/-!  Claim C1: decimal-rendering facts used by the Sheet-Name Allocator. -/

theorem digitChar_inj_lt : ∀ a < 10, ∀ b < 10,
    Nat.digitChar a = Nat.digitChar b → a = b := by decide

theorem natToDigitsAux_fuel (n : Nat) : ∀ f₁ f₂ : Nat, n < f₁ → n < f₂ →
    natToDigitsAux f₁ n = natToDigitsAux f₂ n := by
  induction n using Nat.strong_induction_on with
  | _ n ih =>
    intro f₁ f₂ h₁ h₂
    match f₁, f₂ with
    | g₁ + 1, g₂ + 1 =>
      by_cases h10 : n < 10
      · simp [natToDigitsAux, h10]
      · have hdiv : n / 10 < n := Nat.div_lt_self (by omega) (by omega)
        simp only [natToDigitsAux, h10, if_false]
        rw [ih (n / 10) hdiv g₁ g₂ (by omega) (by omega)]

theorem natToDigitsAux_length (n : Nat) : ∀ f : Nat, n < f →
    (natToDigitsAux f n).length = Nat.log 10 n + 1 := by
  induction n using Nat.strong_induction_on with
  | _ n ih =>
    intro f hf
    match f with
    | g + 1 =>
      by_cases h10 : n < 10
      · simp [natToDigitsAux, h10, Nat.log_eq_zero_iff.mpr (Or.inl h10)]
      · have hdiv : n / 10 < n := Nat.div_lt_self (by omega) (by omega)
        have hlog : Nat.log 10 (n / 10) = Nat.log 10 n - 1 := Nat.log_div_base 10 n
        have hpos : 0 < Nat.log 10 n := Nat.log_pos (by omega) (by omega)
        simp only [natToDigitsAux, h10, if_false, List.length_append,
          List.length_cons, List.length_nil]
        rw [ih (n / 10) hdiv g (by omega), hlog]
        omega

theorem natStr_length (n : Nat) : (natStr n).length = Nat.log 10 n + 1 :=
  natToDigitsAux_length n (n + 1) (Nat.lt_succ_self n)

theorem natToDigitsAux_inj (m : Nat) : ∀ n f₁ f₂ : Nat, m < f₁ → n < f₂ →
    natToDigitsAux f₁ m = natToDigitsAux f₂ n → m = n := by
  induction m using Nat.strong_induction_on with
  | _ m ih =>
    intro n f₁ f₂ h₁ h₂ heq
    match f₁, f₂ with
    | g₁ + 1, g₂ + 1 =>
      by_cases hm : m < 10 <;> by_cases hn : n < 10
      · simp only [natToDigitsAux, hm, hn, if_true, List.cons.injEq] at heq
        exact digitChar_inj_lt m hm n hn heq.1
      · exfalso
        have hlen := congrArg List.length heq
        rw [natToDigitsAux_length m (g₁ + 1) h₁,
          natToDigitsAux_length n (g₂ + 1) h₂] at hlen
        have h0 : Nat.log 10 m = 0 := Nat.log_eq_zero_iff.mpr (Or.inl hm)
        have hp : 0 < Nat.log 10 n := Nat.log_pos (by omega) (by omega)
        omega
      · exfalso
        have hlen := congrArg List.length heq
        rw [natToDigitsAux_length m (g₁ + 1) h₁,
          natToDigitsAux_length n (g₂ + 1) h₂] at hlen
        have h0 : Nat.log 10 n = 0 := Nat.log_eq_zero_iff.mpr (Or.inl hn)
        have hp : 0 < Nat.log 10 m := Nat.log_pos (by omega) (by omega)
        omega
      · simp only [natToDigitsAux, hm, hn, if_false] at heq
        have hparts := List.append_inj' heq rfl
        have hdiv : m / 10 = n / 10 :=
          ih (m / 10) (Nat.div_lt_self (by omega) (by omega)) (n / 10) g₁ g₂
            (by omega) (by omega) hparts.1
        have hmod : m % 10 = n % 10 := by
          have := hparts.2
          simp only [List.cons.injEq] at this
          exact digitChar_inj_lt _ (Nat.mod_lt m (by omega)) _ (Nat.mod_lt n (by omega))
            this.1
        omega

theorem natStr_inj (m n : Nat) (h : natStr m = natStr n) : m = n := by
  have hdata : natToDigitsAux (m + 1) m = natToDigitsAux (n + 1) n :=
    congrArg String.data h
  exact natToDigitsAux_inj m n (m + 1) (n + 1) (Nat.lt_succ_self m)
    (Nat.lt_succ_self n) hdata

theorem natStr_length_band (N k : Nat) (h1 : 10 ^ N ≤ k) (h2 : k < 10 ^ (N + 1)) :
    (natStr k).length = N + 1 := by
  rw [natStr_length, Nat.log_eq_of_pow_le_of_lt_pow h1 h2]

theorem candidateName_length (s : String) (k : Nat) :
    (candidateName s k).length =
      min (31 - (natStr k).length) s.data.length + (natStr k).length := by
  have hmk : ∀ l : List Char, (String.mk l).length = l.length := fun l => rfl
  simp only [candidateName, jsSubstringTo, hmk, List.length_append, List.length_take]

theorem candidateName_inj_band (s : String) (N i j : Nat)
    (hi1 : 10 ^ N ≤ i) (hi2 : i < 10 ^ (N + 1))
    (hj1 : 10 ^ N ≤ j) (hj2 : j < 10 ^ (N + 1))
    (h : candidateName s i = candidateName s j) : i = j := by
  have hdata := congrArg String.data h
  simp only [candidateName, jsSubstringTo] at hdata
  have hli : (natStr i).length = N + 1 := natStr_length_band N i hi1 hi2
  have hlj : (natStr j).length = N + 1 := natStr_length_band N j hj1 hj2
  rw [hli, hlj] at hdata
  have hparts := List.append_inj hdata rfl
  exact natStr_inj i j (String.ext hparts.2)

theorem exists_free_candidate_band (s : String) (used : List String) (N : Nat)
    (hN : used.length < 9 * 10 ^ N) :
    ∃ k, 10 ^ N ≤ k ∧ k < 10 ^ (N + 1) ∧ candidateName s k ∉ used := by
  by_contra hcon
  push_neg at hcon
  have hpow : 10 ^ (N + 1) = 10 * 10 ^ N := by ring
  have hband : ∀ i, i < used.length + 1 →
      10 ^ N ≤ 10 ^ N + i ∧ 10 ^ N + i < 10 ^ (N + 1) := by
    intro i hi
    constructor
    · exact Nat.le_add_right _ _
    · omega
  have hsub : ((List.range (used.length + 1)).map
      fun i => candidateName s (10 ^ N + i)) ⊆ used := by
    intro x hx
    rcases List.mem_map.1 hx with ⟨i, hi, rfl⟩
    have hib := hband i (List.mem_range.1 hi)
    exact hcon _ hib.1 hib.2
  have hnodup : ((List.range (used.length + 1)).map
      fun i => candidateName s (10 ^ N + i)).Nodup := by
    refine List.Nodup.map_on ?_ (List.nodup_range _)
    intro i hi j hj hceq
    have hib := hband i (List.mem_range.1 hi)
    have hjb := hband j (List.mem_range.1 hj)
    have := candidateName_inj_band s N _ _ hib.1 hib.2 hjb.1 hjb.2 hceq
    omega
  have hlen := (List.subperm_of_subset hnodup hsub).length_le
  simp at hlen

theorem exists_free_index (s : String) (used : List String) :
    ∃ m, candidateName s (m + 1) ∉ used := by
  have hN : used.length < 9 * 10 ^ used.length := by
    have h1 : used.length < 10 ^ used.length := Nat.lt_pow_self (by norm_num) _
    have h2 : 10 ^ used.length ≤ 9 * 10 ^ used.length := by omega
    omega
  rcases exists_free_candidate_band s used used.length hN with ⟨k, hk1, _, hkfree⟩
  have hk0 : 1 ≤ k := le_trans (Nat.one_le_two_pow.trans
    (Nat.pow_le_pow_left (by norm_num) _)) hk1
  refine ⟨k - 1, ?_⟩
  rwa [Nat.sub_add_cancel hk0]

theorem getUniqueSheetNameLoop_reaches (s : String) (used : List String) :
    ∀ t k fuel : Nat, (∀ j, j < t → candidateName s (k + j) ∈ used) →
      candidateName s (k + t) ∉ used → t < fuel →
      getUniqueSheetNameLoop s fuel (candidateName s k) (k + 1) used =
        (candidateName s (k + t), used) := by
  intro t
  induction t with
  | zero =>
    intro k fuel hall hfree hf
    match fuel with
    | g + 1 =>
      rw [Nat.add_zero] at hfree
      rw [getUniqueSheetNameLoop, if_neg hfree, Nat.add_zero]
  | succ t ih =>
    intro k fuel hall hfree hf
    match fuel with
    | g + 1 =>
      have hmem : candidateName s k ∈ used := by
        have := hall 0 (Nat.succ_pos t)
        rwa [Nat.add_zero] at this
      rw [getUniqueSheetNameLoop, if_pos hmem]
      have hall2 : ∀ j, j < t → candidateName s (k + 1 + j) ∈ used := by
        intro j hj
        have := hall (j + 1) (by omega)
        rwa [show k + (j + 1) = k + 1 + j by omega] at this
      have hfree2 : candidateName s (k + 1 + t) ∉ used := by
        rwa [show k + 1 + t = k + (t + 1) by omega]
      have := ih (k + 1) g hall2 hfree2 (by omega)
      rw [this, show k + 1 + t = k + (t + 1) by omega]

theorem getUniqueSheetNameLoop_entry (s : String) (used : List String) (fuel : Nat)
    (hfuel : 1 ≤ fuel) (hs : s ∉ used) :
    getUniqueSheetNameLoop s fuel s 1 used = (s, used) := by
  match fuel with
  | g + 1 => rw [getUniqueSheetNameLoop, if_neg hs]

/-- Counterexample for C1 as frozen: for the desired name "A" (length 1, at
most 31) and used set {"A"}, the allocator returns "A1", whose base part "A"
keeps 1 character, not the claimed exactly 31 - 1 = 30 characters: no
decomposition of "A1" into a base of exactly 31 - d characters followed by a
d-digit suffix exists, since any such name has at least 31 characters. -/
theorem getUniqueSheetName_claim_counterexample :
    getUniqueSheetName "A" ["A"] = "A1" ∧
    ¬ ∃ (b : List Char) (k : Nat), 1 ≤ k ∧
      (getUniqueSheetName "A" ["A"]).data = b ++ (natStr k).data ∧
      b.length = 31 - (natStr k).length := by
  constructor
  · decide
  · rintro ⟨b, k, -, hdecomp, hblen⟩
    have h2 : (getUniqueSheetName "A" ["A"]).data.length = 2 := by decide
    rw [hdecomp, List.length_append] at h2
    have hsl : (natStr k).length = (natStr k).data.length := rfl
    rw [hsl] at hblen
    by_cases hd : (natStr k).data.length ≤ 31 <;> omega

/-- Claim C1, amended: for every desired sheet name of length at most 31 and
every used set holding fewer than 9 * 10^30 names, the allocator's loop
terminates (its result is stable once the fuel reaches some bound), and the
result is not in the used set and has length at most 31; when collisions force
an integer suffix k, the result is the desired name truncated to its first
31 - (digits of k) characters followed by k (so at most, not exactly,
31 - digits characters remain when the desired name is short). -/
theorem getUniqueSheetName_correct (s : String) (used : List String)
    (hs : s.length ≤ 31) (hn : used.length < 9 * 10 ^ 30) :
    (∃ N, ∀ fuel, N ≤ fuel →
      (getUniqueSheetNameLoop s fuel s 1 used).1 = getUniqueSheetName s used) ∧
    getUniqueSheetName s used ∉ used ∧
    (getUniqueSheetName s used).length ≤ 31 ∧
    (getUniqueSheetName s used = s ∨
      ∃ k, 1 ≤ k ∧ getUniqueSheetName s used = candidateName s k) := by
  have hfuelpos : 1 ≤ sheetNameFuel used := by
    have hp : 0 < 10 ^ (used.length + 1) := Nat.pow_pos (by norm_num)
    simp only [sheetNameFuel]
    omega
  by_cases hmem : s ∈ used
  · have hEx : ∃ m, candidateName s (m + 1) ∉ used := exists_free_index s used
    set T := Nat.find hEx with hT
    have hfree : candidateName s (T + 1) ∉ used := Nat.find_spec hEx
    have hmin : ∀ j, j < T → candidateName s (j + 1) ∈ used := by
      intro j hj
      have := Nat.find_min hEx hj
      exact not_not.1 this
    have hkey : ∀ fuel, T + 2 ≤ fuel →
        getUniqueSheetNameLoop s fuel s 1 used = (candidateName s (1 + T), used) := by
      intro fuel hf
      match fuel, hf with
      | g + 1, hf =>
        rw [getUniqueSheetNameLoop, if_pos hmem]
        refine getUniqueSheetNameLoop_reaches s used T 1 g ?_ ?_ (by omega)
        · intro j hj
          have := hmin j hj
          rwa [Nat.add_comm 1 j]
        · rwa [Nat.add_comm 1 T]
    -- A free candidate with a 31-digit suffix bounds the digits of the least
    -- free suffix.
    rcases exists_free_candidate_band s used 30 hn with ⟨k₁, hk₁a, hk₁b, hk₁free⟩
    have hk₁pos : 1 ≤ k₁ := le_trans (Nat.one_le_pow _ _ (by norm_num)) hk₁a
    have hTle₁ : T ≤ k₁ - 1 := by
      apply Nat.find_min'
      rwa [Nat.sub_add_cancel hk₁pos]
    have hT31 : (natStr (T + 1)).length ≤ 31 := by
      have h31 : (10 : Nat) ^ (30 + 1) = 10 ^ 31 := by norm_num
      rw [h31] at hk₁b
      have hlt : T + 1 < 10 ^ 31 := by omega
      have := Nat.log_lt_of_lt_pow (show T + 1 ≠ 0 by omega) hlt
      rw [natStr_length]
      omega
    -- A free candidate in the band of the used-list length bounds the fuel.
    have hN0 : used.length < 9 * 10 ^ used.length := by
      have h1 : used.length < 10 ^ used.length := Nat.lt_pow_self (by norm_num) _
      omega
    rcases exists_free_candidate_band s used used.length hN0 with
      ⟨k₀, hk₀a, hk₀b, hk₀free⟩
    have hk₀pos : 1 ≤ k₀ := le_trans (Nat.one_le_pow _ _ (by norm_num)) hk₀a
    have hTle₀ : T ≤ k₀ - 1 := by
      apply Nat.find_min'
      rwa [Nat.sub_add_cancel hk₀pos]
    have hFbig : T + 2 ≤ sheetNameFuel used := by
      simp only [sheetNameFuel]
      omega
    have hval : getUniqueSheetName s used = candidateName s (1 + T) := by
      rw [getUniqueSheetName, hkey (sheetNameFuel used) hFbig]
    refine ⟨⟨T + 2, fun fuel hf => ?_⟩, ?_, ?_, Or.inr ⟨1 + T, by omega, hval⟩⟩
    · rw [hkey fuel hf, hval]
    · rw [hval, Nat.add_comm 1 T]
      exact hfree
    · rw [hval, candidateName_length, Nat.add_comm 1 T]
      omega
  · have hentry := getUniqueSheetNameLoop_entry s used (sheetNameFuel used)
      hfuelpos hmem
    have hval : getUniqueSheetName s used = s := by
      rw [getUniqueSheetName, hentry]
    refine ⟨⟨1, fun fuel hf => ?_⟩, ?_, ?_, Or.inl hval⟩
    · rw [getUniqueSheetNameLoop_entry s used fuel hf hmem, hval]
    · rwa [hval]
    · rwa [hval]

/-- Witness for the amended C1 at the spec's own example: desired name
"Account" with used set {"Account"}. -/
theorem getUniqueSheetName_correct_witness :
    (∃ N, ∀ fuel, N ≤ fuel →
      (getUniqueSheetNameLoop "Account" fuel "Account" 1 ["Account"]).1 =
        getUniqueSheetName "Account" ["Account"]) ∧
    getUniqueSheetName "Account" ["Account"] ∉ ["Account"] ∧
    (getUniqueSheetName "Account" ["Account"]).length ≤ 31 ∧
    (getUniqueSheetName "Account" ["Account"] = "Account" ∨
      ∃ k, 1 ≤ k ∧ getUniqueSheetName "Account" ["Account"] =
        candidateName "Account" k) :=
  getUniqueSheetName_correct "Account" ["Account"] (by decide) (by decide)
